import Mathlib

set_option maxRecDepth 8000

/-!
Verification development for the Prophet compatibility wrapper
(`neuralprophet/wrapper.py`): a shallow embedding of the wrapper's
constructor, `fit`, `predict` and `make_future_dataframe` logic, together
with spec-level models of the engine calls the wrapper delegates to
(`neuralprophet/forecaster.py` is not part of the sources, so those
delegated calls are modelled from the specification and marked as such).

Dataframes are embedded column-wise: a frame is a list of
(column label, column values) pairs with unique labels, matching how the
wrapper only ever inspects column labels and copies whole columns.
-/

/-- String keys used by the wrapper, named so they can appear in
application position. -/
def dsKey : String := "ds"

/-- Column label for the series values. -/
def yKey : String := "y"

/-- Column label of the capacity column rejected by `fit`. -/
def capKey : String := "cap"

/-- Column label of holiday names in the legacy holidays table. -/
def holidayKey : String := "holiday"

/-- Column label the holidays table's name column is renamed to. -/
def eventKey : String := "event"

/-- Column label for the lower event window. -/
def lowerKey : String := "lower_window"

/-- Column label for the upper event window. -/
def upperKey : String := "upper_window"

/-- The internal event marker the wrapper strips from prediction columns
(`wrapper.py` lines 216-219). -/
def eventTag : String := "event_"

/-- The month frequency token treated specially by
`make_future_dataframe` (`wrapper.py` lines 251-253). -/
def monthTok : String := "M"

/-- A frequency token with no special handling, for concrete tests. -/
def weekTok : String := "W"

/-- A frequency token no calendar library supports, for concrete tests. -/
def fortnightTok : String := "fortnight"

/-- The empty string, named so it can appear in application position. -/
def emptyStr : String := ""

/-- Python exceptions observable from the embedded code paths.
`notImplemented` is the `NotImplementedError` raised for `cap` columns;
`keyError` is the pandas `KeyError` on a missing column; `attributeError`
is the `AttributeError` from calling `.copy()` on a `None` history;
`prerequisite` and `invalidArgument` stand for the failures of the
engine calls modelled from the spec (absent/empty history, non-positive
horizon). -/
inductive PyErr where
  | notImplemented
  | keyError (col : String)
  | attributeError
  | prerequisite
  | invalidArgument
deriving DecidableEq, Repr

/-- Equality of embedded call results is decidable, so concrete runs can
be checked by `decide`. -/
instance {ε α : Type} [DecidableEq ε] [DecidableEq α] :
    DecidableEq (Except ε α) := fun a b =>
  match a, b with
  | .ok x, .ok y =>
    if h : x = y then .isTrue (by rw [h]) else .isFalse (by simp [h])
  | .error x, .error y =>
    if h : x = y then .isTrue (by rw [h]) else .isFalse (by simp [h])
  | .ok _, .error _ => .isFalse (by simp)
  | .error _, .ok _ => .isFalse (by simp)

/-- A pandas cell value as the wrapper uses them: holiday names are
strings, dates and windows are integers (dates as day numbers). -/
inductive PyVal where
  | i (n : Int)
  | s (v : String)
deriving DecidableEq, Repr

/-- A numeric dataframe: column labels with integer-valued columns.
Labels are unique in every frame built here, as in pandas. -/
abbrev Frame := List (String × List Int)

/-- A mixed-typed dataframe, used for the legacy holidays table. -/
abbrev HTable := List (String × List PyVal)

/-- Look a column up by label (first match, as pandas with unique
labels). -/
def lookupCol {α : Type} : List (String × α) → String → Option α
  | [], _ => none
  | p :: rest, n => if p.1 = n then some p.2 else lookupCol rest n

/-- Column assignment, `df[t] = v` in pandas: replace the column in
place when the label exists, append it at the end otherwise. -/
def upsertCol {α : Type} : List (String × α) → String → α → List (String × α)
  | [], t, v => [(t, v)]
  | p :: rest, t, v => if p.1 = t then (t, v) :: rest else p :: upsertCol rest t v

/-- Read a column of a numeric frame. -/
def getCol (df : Frame) (n : String) : Option (List Int) := lookupCol df n

/-- Column membership test, `n in df.columns`. -/
def hasCol (df : Frame) (n : String) : Bool := (getCol df n).isSome

/-- Write a column of a numeric frame. -/
def setCol (df : Frame) (n : String) (v : List Int) : Frame := upsertCol df n v

/-- The frame's column labels, in order. -/
def colNames (df : Frame) : List String := df.map (fun p => p.1)

/-- Number of rows of a frame (length of its columns; all columns of a
pandas frame have the same length). -/
def nRows : Frame → Nat
  | [] => 0
  | p :: _ => p.2.length

/-- The `ds` column of a frame, empty when absent. -/
def dsOf (df : Frame) : List Int := (getCol df dsKey).getD []

/-- Values of a column known to be present (empty list otherwise). -/
def valsOf (df : Frame) (n : String) : List Int := (getCol df n).getD []

/-- Whether a (pattern) character list starts the (subject) character
list. -/
def leadsWith : List Char → List Char → Bool
  | [], _ => true
  | _ :: _, [] => false
  | a :: pa, b :: pb => a == b && leadsWith pa pb

/-- Fuelled substring test over character lists; with fuel at least
`s.length + 1` it decides Python's `pat in s`. -/
def pyContainsL : Nat → List Char → List Char → Bool
  | 0, _, _ => false
  | fuel + 1, s, pat =>
    leadsWith pat s ||
      match s with
      | [] => false
      | _ :: rest => pyContainsL fuel rest pat

/-- Python's substring test `pat in s`. -/
def pyContains (s pat : String) : Bool :=
  pyContainsL (s.toList.length + 1) s.toList pat.toList

/-- Fuelled leftmost non-overlapping replace-all over character lists,
the semantics of Python's `str.replace`. -/
def pyReplaceL : Nat → List Char → List Char → List Char → List Char
  | 0, s, _, _ => s
  | fuel + 1, s, pat, rep =>
    match s with
    | [] => []
    | c :: rest =>
      if pat ≠ [] && leadsWith pat (c :: rest) then
        rep ++ pyReplaceL fuel (List.drop pat.length (c :: rest)) pat rep
      else
        c :: pyReplaceL fuel rest pat rep

/-- Python's `s.replace(pat, rep)` (replace every occurrence, scanning
left to right). -/
def pyReplace (s pat rep : String) : String :=
  String.mk (pyReplaceL (s.toList.length + 1) s.toList pat.toList rep.toList)

/-- Read a column of the holidays table; a missing label is a pandas
`KeyError`, as in `holidays["lower_window"]` (`wrapper.py` 101-103). -/
def getColH (tbl : HTable) (n : String) : Except PyErr (List PyVal) :=
  match lookupCol tbl n with
  | some v => .ok v
  | none => .error (.keyError n)

/-- Read a column of the holidays table, empty when absent. -/
def getColHD (tbl : HTable) (n : String) : List PyVal :=
  (lookupCol tbl n).getD []

/-- pandas `Series.unique`: distinct values keeping first-occurrence
order. -/
def uniqueKeep (vs : List PyVal) : List PyVal :=
  vs.foldl (fun acc v => if v ∈ acc then acc else acc ++ [v]) []

/-- pandas `Series.max` over an integer column (`none` on an empty
column, where pandas yields NaN). -/
def pyMaxInts (vs : List PyVal) : Option Int :=
  vs.foldl
    (fun acc v =>
      match v, acc with
      | .i n, none => some n
      | .i n, some m => some (max m n)
      | .s _, a => a)
    none

/-- pandas `rename(columns={old: new})`. -/
def renameCol (tbl : HTable) (old new : String) : HTable :=
  tbl.map (fun p => if p.1 = old then (new, p.2) else p)

/-- pandas `drop(columns, axis=1, errors="ignore")`. -/
def dropCols (tbl : HTable) (ns : List String) : HTable :=
  tbl.filter (fun p => !(ns.contains p.1))

/-- What the wrapper's constructor derives from the holidays table and
hands to the engine: the event name vocabulary, the single window pair
passed to `add_events`, and the stored `events_df`
(`wrapper.py` lines 99-107). -/
structure EventConfig where
  events : List PyVal
  lower_window : Option Int
  upper_window : Option Int
  events_df : HTable
deriving DecidableEq, Repr

/-- Translation of `wrapper.py` lines 99-107: read the `holiday` column
and deduplicate it, take the maximum of the `lower_window` column and
the maximum of the `upper_window` column (column accesses in the
argument-evaluation order of the `add_events` call), then store a copy
of the table with `holiday` renamed to `event` and the window columns
dropped. -/
def registerHolidays (holidays : HTable) : Except PyErr EventConfig :=
  match getColH holidays holidayKey with
  | .error e => .error e
  | .ok hcol =>
    match getColH holidays lowerKey with
    | .error e => .error e
    | .ok lcol =>
      match getColH holidays upperKey with
      | .error e => .error e
      | .ok ucol =>
        .ok { events := uniqueKeep hcol
              lower_window := pyMaxInts lcol
              upper_window := pyMaxInts ucol
              events_df :=
                dropCols (renameCol holidays holidayKey eventKey) [lowerKey, upperKey] }

/-- Modelled from the spec and the call shape at `wrapper.py` line 100:
the engine's `add_events` takes one scalar `lower_window` and one scalar
`upper_window`, so every registered event name receives the same window
pair. The window a name will be expanded with is therefore the stored
pair whenever the name is in the vocabulary. -/
def effectiveWindow (cfg : EventConfig) (name : PyVal) :
    Option (Option Int × Option Int) :=
  if name ∈ cfg.events then some (cfg.lower_window, cfg.upper_window) else none

/-- Follows the claim's words (C1), not the source: the per-name widest
window, pairing the minimum (most negative) of the name's `lower_window`
values with the maximum of its `upper_window` values. -/
def specNameWindow (holidays : HTable) (name : PyVal) :
    Option Int × Option Int :=
  let hs := getColHD holidays holidayKey
  let low := (hs.zip (getColHD holidays lowerKey)).filterMap
    (fun p => if p.1 = name then
        match p.2 with | .i n => some n | .s _ => none
      else none)
  let up := (hs.zip (getColHD holidays upperKey)).filterMap
    (fun p => if p.1 = name then
        match p.2 with | .i n => some n | .s _ => none
      else none)
  (low.foldl (fun acc n => match acc with
      | none => some n
      | some m => some (min m n)) none,
   up.foldl (fun acc n => match acc with
      | none => some n
      | some m => some (max m n)) none)

/-- The `yearly_seasonality` / `weekly_seasonality` / `daily_seasonality`
argument domain: `"auto"`, a boolean, or a Fourier order. -/
inductive SeasonOpt where
  | auto
  | flag (b : Bool)
  | fourier (n : Int)
deriving DecidableEq, Repr

/-- The constructor parameters of the `Prophet` wrapper
(`wrapper.py` lines 54-72), with the source's default values. Prior
scales and the interval width are rationals standing for the Python
floats (only identity and truthiness of these values matter to the
wrapper). -/
structure Params where
  growth : String := "linear"
  changepoints : Option (List Int) := none
  n_changepoints : Int := 25
  changepoint_range : Rat := (0.8 : Rat)
  yearly_seasonality : SeasonOpt := .auto
  weekly_seasonality : SeasonOpt := .auto
  daily_seasonality : SeasonOpt := .auto
  holidays : Option HTable := none
  seasonality_mode : String := "additive"
  seasonality_prior_scale : Option Rat := none
  holidays_prior_scale : Option Rat := none
  changepoint_prior_scale : Option Rat := none
  mcmc_samples : Option Int := none
  interval_width : Rat := (0.8 : Rat)
  uncertainty_samples : Option Int := none
  stan_backend : Option String := none
deriving DecidableEq, Repr

/-- Python truthiness of an optional rational argument. -/
def truthyQ : Option Rat → Bool
  | none => false
  | some q => q != 0

/-- Python truthiness of an optional integer argument. -/
def truthyI : Option Int → Bool
  | none => false
  | some n => n != 0

/-- Python truthiness of an optional string argument. -/
def truthyS : Option String → Bool
  | none => false
  | some s => s != emptyStr

/-- The advisory logged for prior-scale arguments (`wrapper.py` 75-78). -/
def msgPriorScale : String := "prior scale args unsupported, use reg args"

/-- The advisory logged for sample-count arguments (`wrapper.py` 79-82). -/
def msgSamples : String := "sample counts not required"

/-- The advisory logged for a stan backend (`wrapper.py` 83-84). -/
def msgStanBackend : String := "stan backend not used"

/-- Translation of `wrapper.py` lines 74-84: the advisory notices the
constructor logs, in order; each guard is the Python truthiness test of
the source. -/
def initAdvisories (p : Params) : List String :=
  (if truthyQ p.seasonality_prior_scale || truthyQ p.holidays_prior_scale
      || truthyQ p.changepoint_prior_scale then [msgPriorScale] else [])
  ++ (if truthyI p.mcmc_samples || truthyI p.uncertainty_samples
      then [msgSamples] else [])
  ++ (if truthyS p.stan_backend then [msgStanBackend] else [])

/-- The keyword arguments of the `super().__init__` call at
`wrapper.py` lines 86-96: exactly the fields the wrapper forwards to the
engine, under the engine's parameter names. -/
structure EngineConfig where
  growth : String
  changepoints : Option (List Int)
  n_changepoints : Int
  changepoints_range : Rat
  yearly_seasonality : SeasonOpt
  weekly_seasonality : SeasonOpt
  daily_seasonality : SeasonOpt
  seasonality_mode : String
  prediction_interval : Rat
deriving DecidableEq, Repr

/-- Translation of the `super().__init__` call (`wrapper.py` 86-96):
the configuration actually handed to the engine. -/
def engineConfigOf (p : Params) : EngineConfig :=
  { growth := p.growth
    changepoints := p.changepoints
    n_changepoints := p.n_changepoints
    changepoints_range := p.changepoint_range
    yearly_seasonality := p.yearly_seasonality
    weekly_seasonality := p.weekly_seasonality
    daily_seasonality := p.daily_seasonality
    seasonality_mode := p.seasonality_mode
    prediction_interval := p.interval_width }

/-- The same parameters with the six unsupported legacy arguments
cleared back to their defaults. -/
def clearUnsupported (p : Params) : Params :=
  { p with seasonality_prior_scale := none
           holidays_prior_scale := none
           changepoint_prior_scale := none
           mcmc_samples := none
           uncertainty_samples := none
           stan_backend := none }

/-- The wrapper-level model state: the engine configuration, the event
registration derived from the holidays table (absent when no holidays
were given, matching the conditional `events_df` attribute), and the
stored history (`self.history`, `None` until `fit` runs). -/
structure ModelState where
  config : EngineConfig
  eventsCfg : Option EventConfig
  history : Option Frame
deriving DecidableEq, Repr

/-- Translation of the whole constructor (`wrapper.py` 54-114): log the
advisories, build the engine configuration, register the holidays table
when one is given, and start with no history. The advisory list is
produced before holiday handling, as in the source, so it is returned
even when registration fails. -/
def initProphet (p : Params) : List String × Except PyErr ModelState :=
  (initAdvisories p,
    match p.holidays with
    | none =>
      .ok { config := engineConfigOf p, eventsCfg := none, history := none }
    | some h =>
      match registerHolidays h with
      | .error e => .error e
      | .ok cfg =>
        .ok { config := engineConfigOf p, eventsCfg := some cfg, history := none })

/-- Modelled from the spec: `NeuralProphet.fit`
(`neuralprophet/forecaster.py`, not under the sources). Training,
optimisation and the metrics contents are outside the spec's core (§1);
only the call shape is kept: a nonempty frame fits and yields a metrics
table (whose contents no claim inspects), an empty frame has nothing to
fit and fails. -/
def engineFit (df : Frame) : Except PyErr Frame :=
  if nRows df = 0 then .error .prerequisite
  else .ok [("loss", [0])]

/-- Modelled from the spec: `NeuralProphet.create_df_with_events`
(`neuralprophet/forecaster.py`, not under the sources). §4.1 `attach`:
one indicator column per distinct event name, 1 on the dates listed for
that name in the events table, 0 elsewhere. -/
def createDfWithEvents (df : Frame) (ev : HTable) : Frame :=
  let occs := (getColHD ev eventKey).zip (getColHD ev dsKey)
  let dsCol := dsOf df
  df ++ (uniqueKeep (getColHD ev eventKey)).filterMap
    (fun v =>
      match v with
      | PyVal.s nm =>
        some (nm, dsCol.map (fun d => if (PyVal.s nm, PyVal.i d) ∈ occs then (1 : Int) else 0))
      | PyVal.i _ => none)

/-- Modelled from the spec: `NeuralProphet.predict`
(`neuralprophet/forecaster.py`, not under the sources). The numeric
predictions are the excluded engine's business (§1); the model keeps
only what the claims inspect: a nonempty frame yields a predictions
table (represented by the input frame's columns, a placeholder no claim
evaluates) and an empty frame fails (§4.2/§7 prerequisite failure). -/
def enginePredict (df : Frame) : Except PyErr Frame :=
  if nRows df = 0 then .error .prerequisite else .ok df

/-- Modelled from the spec: `NeuralProphet.make_future_dataframe`
(`neuralprophet/forecaster.py`, not under the sources). §4.2 `extend`:
`periods` new timestamps immediately after the history's last date, one
base unit apart, prepending the history when `n_historic_predictions`
is set; §4.2/§7 failure policy: absent or empty history is a
prerequisite failure, a non-positive `periods` an invalid argument. The
event covariate columns of the extended frame are not modelled (no
claim inspects them), so the events argument is unused. -/
def engineMakeFuture (hist : Option Frame) (_events : Option HTable)
    (periods : Int) (includeHist : Bool) : Except PyErr Frame :=
  match hist with
  | none => .error .prerequisite
  | some h =>
    let ds := dsOf h
    if ds = [] then .error .prerequisite
    else if periods ≤ 0 then .error .invalidArgument
    else
      let last := ds.getLastD 0
      let fut := (List.range periods.toNat).map (fun i => last + Int.ofNat i + 1)
      .ok [(dsKey, if includeHist then ds ++ fut else fut)]

/-- The events table the wrapper passes along to the engine, when one
was registered. -/
def evArg (st : ModelState) : Option HTable :=
  match st.eventsCfg with
  | some ec => some ec.events_df
  | none => none

/-- Translation of `Prophet.fit` (`wrapper.py` 161-198): reject a `cap`
column up front with `NotImplementedError`, otherwise fold the
registered events into the frame when an `events_df` exists, run the
engine's fit, and only then store the (possibly augmented) frame as the
history. The returned state is unchanged on any failure. -/
def fit (st : ModelState) (df : Frame) : Except PyErr Frame × ModelState :=
  if hasCol df capKey then (.error .notImplemented, st)
  else
    let df2 :=
      match st.eventsCfg with
      | some ec => createDfWithEvents df ec.events_df
      | none => df
    match engineFit df2 with
    | .error e => (.error e, st)
    | .ok metrics => (.ok metrics, { st with history := some df2 })

/-- One iteration of the renaming loop of `Prophet.predict`
(`wrapper.py` 216-219): when the column label contains `event_`
(Python's substring `in`), assign the column's current values to the
label with every `event_` occurrence removed (Python's `str.replace`).
The `none` branch is unreachable: the loop only receives labels of the
frame and no column is ever removed. -/
def pyStep (df : Frame) (col : String) : Frame :=
  if pyContains col eventTag then
    match getCol df col with
    | some v => setCol df (pyReplace col eventTag emptyStr) v
    | none => df
  else df

/-- Translation of the renaming loop of `Prophet.predict`
(`wrapper.py` 216-219): iterate over a snapshot of the frame's column
labels (pandas iterates the `Index` taken at loop entry) while the frame
itself is updated in place. -/
def predictRename (df : Frame) : Frame :=
  (colNames df).foldl pyStep df

/-- Translation of `Prophet.predict` (`wrapper.py` 200-220): with no
frame given, take the stored history (`self.history.copy()` on a `None`
history is Python's `AttributeError`), run the engine's predict, and
apply the renaming loop to its output. -/
def predict (st : ModelState) (dfIn : Option Frame) : Except PyErr Frame :=
  match dfIn with
  | none =>
    match st.history with
    | none => .error .attributeError
    | some h => (enginePredict h).map predictRename
  | some d => (enginePredict d).map predictRename

/-- Translation of `Prophet.make_future_dataframe` (`wrapper.py`
236-268): multiply `periods` by 30 when the frequency token is `"M"`
(lines 251-253; the token is consulted nowhere else and never forwarded),
then delegate to the engine with the stored history, passing the
registered events table when one exists (lines 255-267). -/
def makeFutureDataframe (st : ModelState) (periods : Int) (freq : String)
    (includeHistory : Bool) : Except PyErr Frame :=
  let p2 := if freq = monthTok then periods * 30 else periods
  match st.eventsCfg with
  | some ec => engineMakeFuture st.history (some ec.events_df) p2 includeHistory
  | none => engineMakeFuture st.history none p2 includeHistory

/-- The helper fold describing what the renaming loop appends when no
stripped label collides with an existing one: the extra columns built
from the original frame. -/
def stepE (base : Frame) (e : Frame) (col : String) : Frame :=
  if pyContains col eventTag then
    setCol e (pyReplace col eventTag emptyStr) (valsOf base col)
  else e

/-- Follows the claim's words (C8), not the source: a column label with
the leading internal event marker stripped (and only the leading one). -/
def specStripLead (s : String) : String :=
  String.mk (s.toList.drop eventTag.toList.length)

/-- The engine configuration produced by an all-default construction. -/
def cfg0 : EngineConfig := engineConfigOf {}

/-- A freshly constructed model: no events, no history. -/
def st0 : ModelState := { config := cfg0, eventsCfg := none, history := none }

/-- A history frame with zero rows. -/
def emptyHist : Frame := [(dsKey, [])]

/-- A model whose stored history is empty. -/
def st1 : ModelState := { config := cfg0, eventsCfg := none, history := some emptyHist }

/-- A three-day history frame. -/
def histDf : Frame := [(dsKey, [0, 1, 2])]

/-- A model with a three-day history and no events. -/
def st2 : ModelState := { config := cfg0, eventsCfg := none, history := some histDf }

/-- A fit input carrying a capacity column. -/
def capDf : Frame := [(dsKey, [0]), (yKey, [1]), (capKey, [9])]

/-- The two-occurrence Diwali table of the spec's own test: windows
[-1, 1] and [-2, 0] for the same holiday name. -/
def diwaliTbl : HTable :=
  [(holidayKey, [PyVal.s ("Diwali"), PyVal.s ("Diwali")]),
   (dsKey, [PyVal.i 100, PyVal.i 465]),
   (lowerKey, [PyVal.i (-1), PyVal.i (-2)]),
   (upperKey, [PyVal.i 1, PyVal.i 0])]

/-- A holidays table with the name and date columns but no window
columns (the wrapper docstring calls the window columns optional). -/
def noWindowTbl : HTable :=
  [(holidayKey, [PyVal.s ("NewYear")]), (dsKey, [PyVal.i 10])]

/-- A construction supplying `mcmc_samples=0`: supplied, but falsy in
Python. -/
def pz : Params := { mcmc_samples := some 0 }

/-- An engine predictions table with an event column whose event name
itself contains the internal marker (event named `x_event_y`). -/
def cexFrame8 : Frame := [(dsKey, [0]), ("event_x_event_y", [7])]

/-- An engine predictions table where an event's stripped name collides
with an existing column label. -/
def cexFrame10 : Frame := [("x", [0]), ("event_x", [5])]

/-- A collision-free engine predictions table with one event column. -/
def wdf : Frame := [(dsKey, [0, 1]), ("event_x", [5, 6])]

/-- A second collision-free engine predictions table. -/
def wdf10 : Frame := [(dsKey, [0]), ("event_a", [3])]

/-- A label appearing among the frame's column labels is found by
`getCol`. -/
theorem hasCol_of_mem (df : Frame) (n : String) (h : n ∈ colNames df) :
    hasCol df n = true := by
  induction df with
  | nil => simp [colNames] at h
  | cons p rest ih =>
    by_cases hp : p.1 = n
    · simp [hasCol, getCol, lookupCol, hp]
    · simp [colNames] at h
      rcases h with h | h
      · exact absurd h.symm hp
      · simpa [hasCol, getCol, lookupCol, hp] using ih (by simpa [colNames] using h)

/-- A label found by `getCol` appears among the frame's column labels. -/
theorem mem_of_hasCol (df : Frame) (n : String) (h : hasCol df n = true) :
    n ∈ colNames df := by
  induction df with
  | nil => simp [hasCol, getCol, lookupCol] at h
  | cons p rest ih =>
    by_cases hp : p.1 = n
    · simp [colNames, hp]
    · simp [hasCol, getCol, lookupCol, hp] at h
      simp [colNames]
      exact Or.inr (by simpa [colNames] using ih (by simpa [hasCol, getCol] using h))

/-- A present column has a value. -/
theorem getCol_some_of_hasCol (df : Frame) (n : String) (h : hasCol df n = true) :
    ∃ v, getCol df n = some v := by
  unfold hasCol at h
  cases hv : getCol df n with
  | none => rw [hv] at h; simp at h
  | some v => exact ⟨v, rfl⟩

/-- Looking a present column up ignores anything appended after the
frame. -/
theorem getCol_append_left (df e : Frame) (n : String) (h : hasCol df n = true) :
    getCol (df ++ e) n = getCol df n := by
  induction df with
  | nil => simp [hasCol, getCol, lookupCol] at h
  | cons p rest ih =>
    by_cases hp : p.1 = n
    · simp [getCol, lookupCol, hp]
    · simp [hasCol, getCol, lookupCol, hp] at h ⊢
      exact ih (by simpa [hasCol, getCol] using h)

/-- Looking an absent column up falls through to the appended frame. -/
theorem getCol_append_right (df e : Frame) (n : String) (h : hasCol df n = false) :
    getCol (df ++ e) n = getCol e n := by
  induction df with
  | nil => simp [getCol]
  | cons p rest ih =>
    by_cases hp : p.1 = n
    · simp [hasCol, getCol, lookupCol, hp] at h
    · simp [hasCol, getCol, lookupCol, hp] at h ⊢
      exact ih (by simpa [hasCol, getCol] using h)

/-- Column membership distributes over frame concatenation. -/
theorem hasCol_append (df e : Frame) (n : String) :
    hasCol (df ++ e) n = (hasCol df n || hasCol e n) := by
  induction df with
  | nil => simp [hasCol, getCol, lookupCol]
  | cons p rest ih =>
    by_cases hp : p.1 = n
    · simp [hasCol, getCol, lookupCol, hp]
    · simpa [hasCol, getCol, lookupCol, hp] using ih

/-- Assigning a label absent from the left frame only touches the right
frame. -/
theorem setCol_append_of_not (df e : Frame) (t : String) (v : List Int)
    (h : hasCol df t = false) :
    setCol (df ++ e) t v = df ++ setCol e t v := by
  induction df with
  | nil => simp
  | cons p rest ih =>
    by_cases hp : p.1 = t
    · simp [hasCol, getCol, lookupCol, hp] at h
    · simp [hasCol, getCol, lookupCol, hp] at h
      simp [setCol, upsertCol, hp]
      exact ih (by simpa [hasCol, getCol] using h)

/-- Reading back an assigned column yields the assigned values. -/
theorem getCol_setCol_self (e : Frame) (t : String) (v : List Int) :
    getCol (setCol e t v) t = some v := by
  induction e with
  | nil => simp [setCol, upsertCol, getCol, lookupCol]
  | cons p rest ih =>
    by_cases hp : p.1 = t
    · simp [setCol, upsertCol, getCol, lookupCol, hp]
    · simpa [setCol, upsertCol, getCol, lookupCol, hp] using ih

/-- Assigning one column leaves every other column unchanged. -/
theorem getCol_setCol_other (e : Frame) (t n : String) (v : List Int)
    (h : n ≠ t) :
    getCol (setCol e t v) n = getCol e n := by
  have ht : t ≠ n := Ne.symm h
  induction e with
  | nil => simp [setCol, upsertCol, getCol, lookupCol, ht]
  | cons p rest ih =>
    by_cases hp : p.1 = t
    · simp [setCol, upsertCol, getCol, lookupCol, hp, ht]
    · by_cases hpn : p.1 = n
      · simp [setCol, upsertCol, getCol, lookupCol, hp, hpn, ht, h]
      · simpa [setCol, upsertCol, getCol, lookupCol, hp, hpn] using ih

/-- An assigned column is present. -/
theorem hasCol_setCol_self (e : Frame) (t : String) (v : List Int) :
    hasCol (setCol e t v) t = true := by
  simp [hasCol, getCol_setCol_self]

/-- Assignment never removes a column. -/
theorem hasCol_setCol_mono (e : Frame) (t n : String) (v : List Int)
    (h : hasCol e n = true) :
    hasCol (setCol e t v) n = true := by
  by_cases hn : n = t
  · subst hn; exact hasCol_setCol_self e n v
  · unfold hasCol
    rw [getCol_setCol_other e t n v hn]
    exact h

/-- While every processed label is a column of the base frame and no
stripped label collides with a base column, the renaming loop leaves the
base frame as a prefix and performs all its writes on the appended
part. -/
theorem foldl_pyStep_append (df : Frame) (L : List String) (e : Frame)
    (hin : ∀ c ∈ L, hasCol df c = true)
    (hfr : ∀ c ∈ L, pyContains c eventTag = true →
      hasCol df (pyReplace c eventTag emptyStr) = false) :
    L.foldl pyStep (df ++ e) = df ++ L.foldl (stepE df) e := by
  induction L generalizing e with
  | nil => simp
  | cons c L ih =>
    have hc : hasCol df c = true := hin c (by simp)
    have hin' : ∀ x ∈ L, hasCol df x = true := fun x hx => hin x (by simp [hx])
    have hfr' : ∀ x ∈ L, pyContains x eventTag = true →
        hasCol df (pyReplace x eventTag emptyStr) = false :=
      fun x hx hev => hfr x (by simp [hx]) hev
    have hstep : pyStep (df ++ e) c = df ++ stepE df e c := by
      unfold pyStep stepE
      by_cases hev : pyContains c eventTag = true
      · obtain ⟨v, hv⟩ := getCol_some_of_hasCol df c hc
        rw [hev]
        simp only [if_true]
        rw [getCol_append_left df e c hc, hv]
        show setCol (df ++ e) (pyReplace c eventTag emptyStr) v
          = df ++ setCol e (pyReplace c eventTag emptyStr) (valsOf df c)
        rw [setCol_append_of_not df e _ v (hfr c (by simp) hev)]
        simp [valsOf, hv]
      · simp only [Bool.not_eq_true] at hev
        simp [hev]
    simp only [List.foldl_cons]
    rw [hstep]
    exact ih (stepE df e c) hin' hfr'

/-- When no stripped label collides with an original column label, the
renaming loop appends its new columns after the original frame. -/
theorem predictRename_eq_append (df : Frame)
    (hfr : ∀ c ∈ colNames df, pyContains c eventTag = true →
      hasCol df (pyReplace c eventTag emptyStr) = false) :
    predictRename df = df ++ (colNames df).foldl (stepE df) [] := by
  have h := foldl_pyStep_append df (colNames df) []
    (fun c hc => hasCol_of_mem df c hc) hfr
  simpa [predictRename] using h

/-- A column that no processed label writes to is untouched by the
write fold. -/
theorem stepE_fold_preserves (df : Frame) (L : List String) (e : Frame)
    (t : String)
    (hnw : ∀ c ∈ L, pyContains c eventTag = true →
      pyReplace c eventTag emptyStr ≠ t) :
    getCol (L.foldl (stepE df) e) t = getCol e t := by
  induction L generalizing e with
  | nil => simp
  | cons c L ih =>
    simp only [List.foldl_cons]
    rw [ih (stepE df e c) (fun x hx hev => hnw x (by simp [hx]) hev)]
    unfold stepE
    by_cases hev : pyContains c eventTag = true
    · rw [hev]
      simp only [if_true]
      exact getCol_setCol_other e _ t _ (Ne.symm (hnw c (by simp) hev))
    · simp only [Bool.not_eq_true] at hev
      simp [hev]

/-- The write fold never removes a column. -/
theorem stepE_fold_hasCol_mono (df : Frame) (L : List String) (e : Frame)
    (t : String) (h : hasCol e t = true) :
    hasCol (L.foldl (stepE df) e) t = true := by
  induction L generalizing e with
  | nil => simpa
  | cons c L ih =>
    simp only [List.foldl_cons]
    apply ih
    unfold stepE
    by_cases hev : pyContains c eventTag = true
    · rw [hev]
      simp only [if_true]
      exact hasCol_setCol_mono e _ t _ h
    · simp only [Bool.not_eq_true] at hev
      simpa [hev]

/-- Every event-marked label in the processed list gets its stripped
column written. -/
theorem stepE_fold_writes (df : Frame) (L : List String) (e : Frame)
    (n : String) (hmem : n ∈ L) (hev : pyContains n eventTag = true) :
    hasCol (L.foldl (stepE df) e) (pyReplace n eventTag emptyStr) = true := by
  induction L generalizing e with
  | nil => cases hmem
  | cons c L ih =>
    simp only [List.foldl_cons]
    rcases List.mem_cons.mp hmem with h | h
    · subst h
      apply stepE_fold_hasCol_mono
      unfold stepE
      rw [hev]
      simp only [if_true]
      exact hasCol_setCol_self e _ _
    · exact ih (stepE df e c) h

/-- With pairwise distinct processed labels and a stripped label written
by no other processed label, the stripped column of `n` ends up holding
the base frame's values of `n`. -/
theorem stepE_fold_last_write (df : Frame) (L : List String) (e : Frame)
    (n : String) (hnd : L.Nodup) (hmem : n ∈ L)
    (hev : pyContains n eventTag = true)
    (huni : ∀ c ∈ L, pyContains c eventTag = true →
      pyReplace c eventTag emptyStr = pyReplace n eventTag emptyStr → c = n) :
    getCol (L.foldl (stepE df) e) (pyReplace n eventTag emptyStr)
      = some (valsOf df n) := by
  induction L generalizing e with
  | nil => cases hmem
  | cons c L ih =>
    have hnd' := List.nodup_cons.mp hnd
    simp only [List.foldl_cons]
    rcases List.mem_cons.mp hmem with h | h
    · subst h
      rw [stepE_fold_preserves df L (stepE df e n) _ ?nowrite]
      case nowrite =>
        intro c' hc' hev' heq
        have hcn : c' = n := huni c' (by simp [hc']) hev' heq
        subst hcn
        exact absurd hc' hnd'.1
      unfold stepE
      rw [hev]
      simp only [if_true]
      exact getCol_setCol_self e _ _
    · exact ih (stepE df e c) hnd'.2 h
        (fun c' hc' hev' heq => huni c' (List.mem_cons_of_mem c hc') hev' heq)

/-- The wrapper's future-frame builder always delegates to the engine
with the stored history, the registered events, and the
frequency-normalised period count. -/
theorem makeFuture_delegates (st : ModelState) (p : Int) (f : String)
    (inc : Bool) :
    makeFutureDataframe st p f inc
      = engineMakeFuture st.history (evArg st)
          (if f = monthTok then p * 30 else p) inc := by
  unfold makeFutureDataframe evArg
  cases hst : st.eventsCfg <;> simp [hst]

/-- With a nonempty history and a positive horizon the engine model
produces exactly the future dates. -/
theorem engineMakeFuture_rows (h : Frame) (ev : Option HTable) (p : Int)
    (hds : ¬ dsOf h = []) (hp : 0 < p) :
    engineMakeFuture (some h) ev p false
      = .ok [(dsKey, (List.range p.toNat).map
          (fun i => (dsOf h).getLastD 0 + Int.ofNat i + 1))] := by
  have hple : ¬ (p ≤ 0) := by omega
  simp [engineMakeFuture, hds, hple]

/-- C1 (counterexample). On the spec's own two-occurrence Diwali table
(windows [-1, 1] and [-2, 0] for one name) the wrapper registers the
window pair (max of the lower windows, max of the upper windows)
= (-1, 1), while the claim's per-name widest window pairs the minimum
lower with the maximum upper, giving (-2, 1): the effective expansion
window is not the claimed one. -/
theorem holiday_window_cex :
    registerHolidays diwaliTbl
      = .ok { events := [PyVal.s ("Diwali")]
              lower_window := some (-1)
              upper_window := some 1
              events_df :=
                [(eventKey, [PyVal.s ("Diwali"), PyVal.s ("Diwali")]),
                 (dsKey, [PyVal.i 100, PyVal.i 465])] }
    ∧ specNameWindow diwaliTbl (PyVal.s ("Diwali")) = (some (-2), some 1)
    ∧ ((some (-1) : Option Int), (some 1 : Option Int)) ≠ (some (-2), some 1) := by
  refine ⟨by decide, by decide, by decide⟩

/-- C1 (amended). What the constructor actually registers: one global
window pair applied to every holiday name, whose lower component is the
maximum (narrowest) of all `lower_window` values in the whole table and
whose upper component is the maximum of all `upper_window` values; the
effective window is the same for every name in the vocabulary. -/
theorem holiday_window_global (tbl : HTable) (hcol lcol ucol : List PyVal)
    (h1 : getColH tbl holidayKey = .ok hcol)
    (h2 : getColH tbl lowerKey = .ok lcol)
    (h3 : getColH tbl upperKey = .ok ucol)
    (name : PyVal) (hm : name ∈ uniqueKeep hcol) :
    ∃ cfg, registerHolidays tbl = .ok cfg
      ∧ cfg.lower_window = pyMaxInts lcol
      ∧ cfg.upper_window = pyMaxInts ucol
      ∧ effectiveWindow cfg name = some (pyMaxInts lcol, pyMaxInts ucol) := by
  refine ⟨{ events := uniqueKeep hcol
            lower_window := pyMaxInts lcol
            upper_window := pyMaxInts ucol
            events_df :=
              dropCols (renameCol tbl holidayKey eventKey) [lowerKey, upperKey] },
    ?_, rfl, rfl, ?_⟩
  · simp [registerHolidays, h1, h2, h3]
  · simp [effectiveWindow, hm]

/-- C1 (witness for the amended theorem), at the Diwali table. -/
theorem holiday_window_global_witness :
    ∃ cfg, registerHolidays diwaliTbl = .ok cfg
      ∧ cfg.lower_window = pyMaxInts [PyVal.i (-1), PyVal.i (-2)]
      ∧ cfg.upper_window = pyMaxInts [PyVal.i 1, PyVal.i 0]
      ∧ effectiveWindow cfg (PyVal.s ("Diwali"))
        = some (pyMaxInts [PyVal.i (-1), PyVal.i (-2)],
                pyMaxInts [PyVal.i 1, PyVal.i 0]) :=
  holiday_window_global diwaliTbl
    [PyVal.s ("Diwali"), PyVal.s ("Diwali")]
    [PyVal.i (-1), PyVal.i (-2)] [PyVal.i 1, PyVal.i 0]
    (by decide) (by decide) (by decide) (PyVal.s ("Diwali")) (by decide)

/-- C2. The `"M"` frequency token multiplies `periods` by 30 before
delegating to the day-stepping engine, every other token passes
`periods` through unchanged, and with a nonempty history and positive
`periods` the month request yields exactly `30 * periods` future rows
(no calendar-aware adjustment: the factor never consults the dates). -/
theorem month_periods_times_thirty (st : ModelState) (p : Int) (f : String)
    (inc : Bool) :
    makeFutureDataframe st p monthTok inc
      = engineMakeFuture st.history (evArg st) (p * 30) inc
    ∧ (f ≠ monthTok →
      makeFutureDataframe st p f inc
        = engineMakeFuture st.history (evArg st) p inc)
    ∧ (∀ h, st.history = some h → ¬ dsOf h = [] → 0 < p →
      ∃ fr, makeFutureDataframe st p monthTok false = .ok fr
        ∧ nRows fr = (p * 30).toNat) := by
  refine ⟨?_, ?_, ?_⟩
  · rw [makeFuture_delegates]
    simp
  · intro hf
    rw [makeFuture_delegates, if_neg hf]
  · intro h hh hds hp
    have h30 : 0 < p * 30 := by omega
    refine ⟨[(dsKey, (List.range ((p * 30)).toNat).map
        (fun i => (dsOf h).getLastD 0 + Int.ofNat i + 1))], ?_, ?_⟩
    · rw [makeFuture_delegates, hh, if_pos rfl]
      exact engineMakeFuture_rows h (evArg st) (p * 30) hds h30
    · simp [nRows]

/-- C2 (witness), on a three-day history: periods 2 gives the engine 60
steps, a non-month token passes periods through, and one month yields
30 future rows. -/
theorem month_periods_times_thirty_witness :
    makeFutureDataframe st2 2 monthTok false
      = engineMakeFuture st2.history (evArg st2) (2 * 30) false
    ∧ makeFutureDataframe st2 5 weekTok false
      = engineMakeFuture st2.history (evArg st2) 5 false
    ∧ ∃ fr, makeFutureDataframe st2 1 monthTok false = .ok fr
      ∧ nRows fr = ((1 : Int) * 30).toNat :=
  ⟨(month_periods_times_thirty st2 2 weekTok false).1,
   (month_periods_times_thirty st2 5 weekTok false).2.1 (by decide),
   (month_periods_times_thirty st2 1 weekTok false).2.2 histDf rfl
     (by decide) (by decide)⟩

/-- C3. A fit input with a `cap` column is rejected up front with the
unsupported-feature error (`NotImplementedError`), and the model state
is returned unchanged: nothing was fitted or mutated. -/
theorem fit_rejects_cap (st : ModelState) (df : Frame)
    (h : hasCol df capKey = true) :
    fit st df = (.error .notImplemented, st) := by
  unfold fit
  simp [h]

/-- C3 (witness), at a concrete frame with a capacity column. -/
theorem fit_rejects_cap_witness :
    hasCol capDf capKey = true
    ∧ fit st0 capDf = (.error .notImplemented, st0) :=
  ⟨by decide, fit_rejects_cap st0 capDf (by decide)⟩

/-- C4 (counterexample). A frequency token nothing supports
(`"fortnight"`) does not raise: the wrapper validates no token, so the
call succeeds and the token is silently treated as the daily base unit. -/
theorem horizon_token_cex :
    makeFutureDataframe st2 5 fortnightTok false
      = .ok [(dsKey, [3, 4, 5, 6, 7])] := by decide

/-- C4 (amended). With a nonempty history, a non-positive `periods`
fails with the invalid-argument error (raised by the spec-modelled
engine, which is the only periods check on this path); unsupported
frequency tokens are not rejected: any token other than `"M"` leaves
`periods` unchanged and the call succeeds. -/
theorem horizon_nonpositive_and_tokens (st : ModelState) (h : Frame)
    (p : Int) (f : String) (inc : Bool)
    (hh : st.history = some h) (hds : ¬ dsOf h = []) :
    (p ≤ 0 → makeFutureDataframe st p f inc = .error .invalidArgument)
    ∧ (0 < p → f ≠ monthTok → ∃ fr, makeFutureDataframe st p f inc = .ok fr) := by
  constructor
  · intro hp
    have hp2 : (if f = monthTok then p * 30 else p) ≤ 0 := by
      split <;> omega
    unfold makeFutureDataframe
    cases hst : st.eventsCfg <;>
      simp [hst, engineMakeFuture, hh, hds, hp2]
  · intro hp hf
    have hp2 : ¬ ((if f = monthTok then p * 30 else p) ≤ 0) := by
      rw [if_neg hf]; omega
    unfold makeFutureDataframe
    cases hst : st.eventsCfg <;>
      simp [hst, engineMakeFuture, hh, hds, hp2]

/-- C4 (witness for the amended theorem): periods 0 fails, a positive
horizon under the unsupported token does not. -/
theorem horizon_nonpositive_witness :
    makeFutureDataframe st2 0 weekTok false = .error .invalidArgument
    ∧ ∃ fr, makeFutureDataframe st2 5 fortnightTok false = .ok fr :=
  ⟨(horizon_nonpositive_and_tokens st2 histDf 0 weekTok false rfl
      (by decide)).1 (by decide),
   (horizon_nonpositive_and_tokens st2 histDf 5 fortnightTok false rfl
      (by decide)).2 (by decide) (by decide)⟩

/-- C5 (counterexample). Before any fit, `predict` with no frame does
fail, but with the `AttributeError` of dereferencing the `None` history
(`self.history.copy()`), not with a designed prerequisite error. -/
theorem predict_no_fit_cex :
    predict st0 none = .error .attributeError
    ∧ PyErr.attributeError ≠ PyErr.prerequisite := by decide

/-- C5 (amended). With no stored history, `predict` with no frame fails
with `AttributeError` and `make_future_dataframe` fails with the
prerequisite error (spec-modelled engine reaction to an absent frame);
with an empty stored history both operations fail with the prerequisite
error. Neither ever silently produces a frame. -/
theorem no_history_failures (st : ModelState) (p : Int) (f : String)
    (inc : Bool) :
    (st.history = none →
      predict st none = .error .attributeError
      ∧ makeFutureDataframe st p f inc = .error .prerequisite)
    ∧ (∀ h, st.history = some h → nRows h = 0 → dsOf h = [] →
      predict st none = .error .prerequisite
      ∧ makeFutureDataframe st p f inc = .error .prerequisite) := by
  constructor
  · intro hh
    constructor
    · simp [predict, hh]
    · unfold makeFutureDataframe
      cases hst : st.eventsCfg <;> simp [hst, engineMakeFuture, hh]
  · intro h hh hn hds
    constructor
    · simp [predict, hh, enginePredict, hn, Except.map]
    · unfold makeFutureDataframe
      cases hst : st.eventsCfg <;> simp [hst, engineMakeFuture, hh, hds]

/-- C5 (witness for the amended theorem): a fresh model and a model with
an empty stored history. -/
theorem no_history_failures_witness :
    (predict st0 none = .error .attributeError
      ∧ makeFutureDataframe st0 1 weekTok false = .error .prerequisite)
    ∧ (predict st1 none = .error .prerequisite
      ∧ makeFutureDataframe st1 1 weekTok false = .error .prerequisite) :=
  ⟨(no_history_failures st0 1 weekTok false).1 rfl,
   (no_history_failures st1 1 weekTok false).2 emptyHist rfl
     (by decide) (by decide)⟩

/-- C6 (code bug). Registering a holidays table whose window columns
are absent does not default them to 0: the constructor unconditionally
indexes `holidays["lower_window"]` and crashes with a pandas `KeyError`,
although the wrapper's own docstring (`wrapper.py` 31-33) calls the
window columns optional. -/
theorem holidays_missing_window_cols_crash :
    registerHolidays noWindowTbl = .error (.keyError lowerKey) := by decide

/-- C7 (counterexample). Supplying `mcmc_samples=0` supplies one of the
six unsupported parameters, yet no advisory notice is produced: the
constructor's guards test Python truthiness, and 0 is falsy. -/
theorem falsy_mcmc_no_advisory_cex :
    pz.mcmc_samples = some 0
    ∧ ¬ pz.mcmc_samples = none
    ∧ initAdvisories pz = [] := by decide

/-- C7 (amended). An advisory notice is produced exactly when a truthy
value is supplied for a parameter of the corresponding unsupported
group; any value of the six parameters (truthy or falsy) raises nothing
and has no effect on the configuration forwarded to the engine or on
the construction's outcome. -/
theorem unsupported_params_advisory_only (p : Params) :
    ((msgPriorScale ∈ initAdvisories p) ↔
      (truthyQ p.seasonality_prior_scale || truthyQ p.holidays_prior_scale
        || truthyQ p.changepoint_prior_scale) = true)
    ∧ ((msgSamples ∈ initAdvisories p) ↔
      (truthyI p.mcmc_samples || truthyI p.uncertainty_samples) = true)
    ∧ ((msgStanBackend ∈ initAdvisories p) ↔ truthyS p.stan_backend = true)
    ∧ engineConfigOf p = engineConfigOf (clearUnsupported p)
    ∧ (initProphet p).2 = (initProphet (clearUnsupported p)).2
    ∧ (p.holidays = none →
      (initProphet p).2
        = .ok { config := engineConfigOf p, eventsCfg := none, history := none }) := by
  have hne1 : ¬ msgPriorScale = msgSamples := by decide
  have hne2 : ¬ msgPriorScale = msgStanBackend := by decide
  have hne3 : ¬ msgSamples = msgPriorScale := by decide
  have hne4 : ¬ msgSamples = msgStanBackend := by decide
  have hne5 : ¬ msgStanBackend = msgPriorScale := by decide
  have hne6 : ¬ msgStanBackend = msgSamples := by decide
  refine ⟨?_, ?_, ?_, rfl, rfl, ?_⟩
  · cases h1 : (truthyQ p.seasonality_prior_scale
        || truthyQ p.holidays_prior_scale
        || truthyQ p.changepoint_prior_scale) <;>
    cases h2 : (truthyI p.mcmc_samples || truthyI p.uncertainty_samples) <;>
    cases h3 : truthyS p.stan_backend <;>
      simp [initAdvisories, h1, h2, h3, hne1, hne2]
  · cases h1 : (truthyQ p.seasonality_prior_scale
        || truthyQ p.holidays_prior_scale
        || truthyQ p.changepoint_prior_scale) <;>
    cases h2 : (truthyI p.mcmc_samples || truthyI p.uncertainty_samples) <;>
    cases h3 : truthyS p.stan_backend <;>
      simp [initAdvisories, h1, h2, h3, hne3, hne4]
  · cases h1 : (truthyQ p.seasonality_prior_scale
        || truthyQ p.holidays_prior_scale
        || truthyQ p.changepoint_prior_scale) <;>
    cases h2 : (truthyI p.mcmc_samples || truthyI p.uncertainty_samples) <;>
    cases h3 : truthyS p.stan_backend <;>
      simp [initAdvisories, h1, h2, h3, hne5, hne6]
  · intro hh
    simp [initProphet, hh]

/-- C7 (witness for the amended theorem), at the `mcmc_samples=0`
construction, which fits successfully (no holidays, no exception). -/
theorem unsupported_params_advisory_only_witness :
    (initProphet pz).2
      = .ok { config := engineConfigOf pz, eventsCfg := none, history := none } :=
  (unsupported_params_advisory_only pz).2.2.2.2.2 rfl

/-- C8 (counterexample). For the event name `x_event_y` the engine
column `event_x_event_y` carries the internal marker as a leading
marker, but the returned frame has no column named with that leading
marker stripped (`x_event_y`): the code removes every occurrence of
`event_` instead, producing `x_y`. -/
theorem predict_strip_lead_cex :
    leadsWith eventTag.toList (String.toList ("event_x_event_y")) = true
    ∧ specStripLead ("event_x_event_y") = "x_event_y"
    ∧ getCol (predictRename cexFrame8) (specStripLead ("event_x_event_y")) = none
    ∧ getCol (predictRename cexFrame8) ("x_y") = some [7] := by decide

/-- C8 (amended). For each engine column whose label contains `event_`,
the frame returned by the renaming step contains a column named with
every occurrence of `event_` removed; when the frame's labels are
distinct, no such stripped label collides with an engine column label,
and no two event columns strip to the same label, the stripped column's
values equal the engine column's values row for row. -/
theorem predict_event_copy_values (df : Frame)
    (hnd : (colNames df).Nodup)
    (hfr : ∀ c ∈ colNames df, pyContains c eventTag = true →
      hasCol df (pyReplace c eventTag emptyStr) = false)
    (hinj : ∀ c1 ∈ colNames df, ∀ c2 ∈ colNames df,
      pyContains c1 eventTag = true → pyContains c2 eventTag = true →
      pyReplace c1 eventTag emptyStr = pyReplace c2 eventTag emptyStr → c1 = c2)
    (n : String) (hn : n ∈ colNames df) (hev : pyContains n eventTag = true) :
    getCol (predictRename df) (pyReplace n eventTag emptyStr) = getCol df n := by
  rw [predictRename_eq_append df hfr]
  rw [getCol_append_right df _ _ (hfr n hn hev)]
  rw [stepE_fold_last_write df (colNames df) [] n hnd hn hev
    (fun c hc hev' heq => hinj c hc n hn hev' hev heq)]
  obtain ⟨v, hv⟩ := getCol_some_of_hasCol df n (hasCol_of_mem df n hn)
  simp [valsOf, hv]

/-- C8 (witness for the amended theorem), on a collision-free frame. -/
theorem predict_event_copy_values_witness :
    getCol (predictRename wdf) (pyReplace ("event_x") eventTag emptyStr)
      = getCol wdf ("event_x") :=
  predict_event_copy_values wdf (by decide) (by decide) (by decide)
    ("event_x") (by decide) (by decide)

/-- C9. The constructor forwards growth, changepoints, n_changepoints,
the three seasonality toggles and the seasonality mode unchanged,
forwards `changepoint_range` as the engine's `changepoints_range` and
`interval_width` as the engine's `prediction_interval`, and the
holidays table never reaches the engine configuration. -/
theorem config_forwarding (p : Params) :
    (engineConfigOf p).growth = p.growth
    ∧ (engineConfigOf p).changepoints = p.changepoints
    ∧ (engineConfigOf p).n_changepoints = p.n_changepoints
    ∧ (engineConfigOf p).yearly_seasonality = p.yearly_seasonality
    ∧ (engineConfigOf p).weekly_seasonality = p.weekly_seasonality
    ∧ (engineConfigOf p).daily_seasonality = p.daily_seasonality
    ∧ (engineConfigOf p).seasonality_mode = p.seasonality_mode
    ∧ (engineConfigOf p).changepoints_range = p.changepoint_range
    ∧ (engineConfigOf p).prediction_interval = p.interval_width
    ∧ engineConfigOf { p with holidays := none } = engineConfigOf p :=
  ⟨rfl, rfl, rfl, rfl, rfl, rfl, rfl, rfl, rfl, rfl⟩

/-- C10 (counterexample). The returned frame does not keep every engine
column unchanged: when an event's stripped name collides with an
existing column label (`event_x` alongside `x`), the existing column is
overwritten with the event column's values. -/
theorem predict_overwrite_cex :
    getCol cexFrame10 ("x") = some [0]
    ∧ getCol (predictRename cexFrame10) ("x") = some [5]
    ∧ ¬ (some [5] : Option (List Int)) = some [0] := by decide

/-- C10 (amended). When no stripped event label collides with an engine
column label, the renaming step removes nothing: every engine column
appears unchanged in the returned frame, and for each event-marked
column the stripped copy is present alongside it, so the frame holds
both versions. -/
theorem predict_keeps_engine_columns (df : Frame)
    (hfr : ∀ c ∈ colNames df, pyContains c eventTag = true →
      hasCol df (pyReplace c eventTag emptyStr) = false)
    (n : String) (hn : n ∈ colNames df) :
    getCol (predictRename df) n = getCol df n
    ∧ (pyContains n eventTag = true →
      hasCol (predictRename df) n = true
      ∧ hasCol (predictRename df) (pyReplace n eventTag emptyStr) = true) := by
  have hbase : getCol (predictRename df) n = getCol df n := by
    rw [predictRename_eq_append df hfr]
    exact getCol_append_left df _ n (hasCol_of_mem df n hn)
  refine ⟨hbase, fun hev => ⟨?_, ?_⟩⟩
  · unfold hasCol
    rw [hbase]
    exact hasCol_of_mem df n hn
  · rw [predictRename_eq_append df hfr, hasCol_append]
    have hw := stepE_fold_writes df (colNames df) [] n hn hev
    simp [hw]

/-- C10 (witness for the amended theorem), on a collision-free frame. -/
theorem predict_keeps_engine_columns_witness :
    getCol (predictRename wdf10) ("event_a") = getCol wdf10 ("event_a")
    ∧ hasCol (predictRename wdf10) ("event_a") = true
    ∧ hasCol (predictRename wdf10) (pyReplace ("event_a") eventTag emptyStr)
      = true :=
  ⟨(predict_keeps_engine_columns wdf10 (by decide) ("event_a") (by decide)).1,
   ((predict_keeps_engine_columns wdf10 (by decide) ("event_a") (by decide)).2
     (by decide)).1,
   ((predict_keeps_engine_columns wdf10 (by decide) ("event_a") (by decide)).2
     (by decide)).2⟩
